import Mathlib

/-!
Verification of the secure-wipe overwrite engine.

The definitions below are a shallow embedding of the Rust sources:
  src/args.rs       (algorithm selector)
  src/algorithms.rs (pass counts, per-pass patterns, Gutmann table)
  src/wipe.rs       (open flags, buffer sizing, the per-pass write loop,
                     per-pass sync, progress events)
Machine integers are modelled as Nat; byte values are Nat below 256.
Calls into the OS (open, metadata, ioctl, fsync results, clock-based
progress throttling, the random generator) are modelled as explicit
oracle parameters, since their values come from outside the program.
-/

namespace SecureWipe

/-- Algorithm selector, from the WipeAlgorithm enum in src/args.rs. -/
inductive WipeAlgorithm where
  | Zero
  | Random
  | Dod5220
  | Gutmann
  | Custom
  deriving DecidableEq, Repr

/-- Per-pass pattern, from the WipePattern enum in src/algorithms.rs.
Byte values and byte sequences are Nats and lists of Nats. -/
inductive WipePattern where
  | Fixed (b : Nat)
  | Random
  | Gutmann (patterns : List (List Nat))
  deriving DecidableEq, Repr

/-- The fixed 29-entry Gutmann pattern table, GUTMANN_PATTERNS in
src/algorithms.rs lines 11-41, transcribed entry for entry. -/
def GUTMANN_PATTERNS : List (List Nat) :=
  [ [0x00],
    [0xFF],
    [0x55],
    [0xAA],
    [0x92, 0x49, 0x24],
    [0x49, 0x24, 0x92],
    [0x24, 0x92, 0x49],
    [0x00, 0x00, 0x00],
    [0x11, 0x11, 0x11],
    [0x22, 0x22, 0x22],
    [0x33, 0x33, 0x33],
    [0x44, 0x44, 0x44],
    [0x55, 0x55, 0x55],
    [0x66, 0x66, 0x66],
    [0x77, 0x77, 0x77],
    [0x88, 0x88, 0x88],
    [0x99, 0x99, 0x99],
    [0xAA, 0xAA, 0xAA],
    [0xBB, 0xBB, 0xBB],
    [0xCC, 0xCC, 0xCC],
    [0xDD, 0xDD, 0xDD],
    [0xEE, 0xEE, 0xEE],
    [0xFF, 0xFF, 0xFF],
    [0x92, 0x49, 0x24],
    [0x49, 0x24, 0x92],
    [0x24, 0x92, 0x49],
    [0x6D, 0xB6, 0xDB],
    [0xB6, 0xDB, 0x6D],
    [0xDB, 0x6D, 0xB6] ]

/-- get_algorithm_pass_count from src/algorithms.rs lines 43-50.
For Custom it returns the caller-supplied custom_passes unchanged,
with no validation anywhere in the program that it is positive. -/
def get_algorithm_pass_count (algorithm : WipeAlgorithm) (custom_passes : Nat) : Nat :=
  match algorithm with
  | .Zero => 1
  | .Random => 1
  | .Dod5220 => 3
  | .Gutmann => 35
  | .Custom => custom_passes

/-- get_pass_pattern from src/algorithms.rs lines 52-68. The Rust
function has an unreachable-panic arm for a Dod5220 pass outside 1..3,
modelled here as none. -/
def get_pass_pattern (algorithm : WipeAlgorithm) (pass : Nat) : Option WipePattern :=
  match algorithm with
  | .Zero => some (.Fixed 0x00)
  | .Random => some .Random
  | .Dod5220 =>
    match pass with
    | 1 => some (.Fixed 0x00)
    | 2 => some (.Fixed 0xFF)
    | 3 => some .Random
    | _ => none
  | .Gutmann => some (.Gutmann GUTMANN_PATTERNS)
  | .Custom => some .Random

/-- The Gutmann table entry used to fill the buffer on a given pass:
src/wipe.rs line 308 computes pattern_idx as (pass - 1) modulo the
table length and indexes the table with it. -/
def gutmannPatternFor (pass : Nat) : List Nat :=
  GUTMANN_PATTERNS.getD ((pass - 1) % GUTMANN_PATTERNS.length) []

/-- Open flags computed by WipeContext::new on the unix configuration,
src/wipe.rs lines 129-141: the file is opened write(true).read(true);
O_SYNC is added exactly when the target is a block device and fast mode
is off. O_DIRECT (the page-cache bypass flag) appears only inside a
source comment suggesting to consider it, and is never set. -/
structure OpenFlags where
  read : Bool
  write : Bool
  o_sync : Bool
  o_direct : Bool
  deriving DecidableEq, Repr

/-- The flag computation of WipeContext::new (src/wipe.rs lines 129-141). -/
def openFlagsFor (is_block_device fast_mode : Bool) : OpenFlags :=
  { read := true
    write := true
    o_sync := is_block_device && !fast_mode
    o_direct := false }

/-- get_optimal_buffer_size from src/wipe.rs lines 28-49. Sizes are in
KB. The available system memory is read from the OS by
get_available_memory_kb and is modelled as an oracle parameter; a
lookup failure (none) falls back to the 8 GB default, exactly as the
unwrap_or in line 35 does. -/
def get_optimal_buffer_size (is_block_device : Bool) (requested_size : Nat)
    (available_memory_kb : Option Nat) : Nat :=
  if requested_size ≠ 1024 then
    requested_size
  else
    let system_memory_kb := available_memory_kb.getD (8 * 1024 * 1024)
    if is_block_device then
      max (8 * 1024) (min (64 * 1024) (system_memory_kb / 50))
    else
      max (4 * 1024) (min (32 * 1024) (system_memory_kb / 100))

/-- Session configuration, the fields of WipeContext (src/wipe.rs lines
106-117) that the pass loop reads. bufLen is the length in bytes of the
pre-allocated write_buffer (src/wipe.rs line 208). -/
structure SessionConfig where
  algorithm : WipeAlgorithm
  custom_passes : Nat
  size : Nat
  bufLen : Nat
  jsonMode : Bool
  fastMode : Bool
  is_block_device : Bool
  deriving DecidableEq, Repr

/-- Successive write sizes of the main write loop of wipe_pass
(src/wipe.rs lines 337-353): while total_written is below size, write
min(buffer length, size - total_written) bytes. The recursion is driven
by an explicit fuel argument equal to the initial remaining count; each
iteration writes at least one byte when the buffer is nonempty, so that
fuel always suffices. A zero-length buffer makes the source loop spin
forever writing nothing; it is mapped to the empty list here. -/
def writeSizesAux (bufLen : Nat) : Nat → Nat → List Nat
  | 0, _ => []
  | fuel + 1, remaining =>
    if remaining = 0 ∨ bufLen = 0 then []
    else
      min bufLen remaining :: writeSizesAux bufLen fuel (remaining - min bufLen remaining)

/-- Write sizes of one full pass over a target of the given size. -/
def writeSizes (bufLen size : Nat) : List Nat :=
  writeSizesAux bufLen size size

/-- Progress events emitted on stdout in structured mode, the
ProgressEvent enum of src/progress.rs reduced to the payload fields the
verified properties mention (the floating-point throughput and percent
fields are dropped). -/
inductive EmittedEvent where
  | start
  | passStart (pass : Nat)
  | progress (pass : Nat) (bytesWritten : Nat)
  | passComplete (pass : Nat)
  | complete
  deriving DecidableEq, Repr

/-- Observable effects of the engine on the target file and on the
event stream, in program order. fillBuf is the once-per-pass pre-fill
of write_buffer with its full contents; fillRandom n is a fresh
thread_rng fill of the first n buffer bytes; write n is a write_all of
n bytes; fsync is the end-of-pass libc fsync call. -/
inductive Effect where
  | seekStart
  | fillBuf (bytes : List Nat)
  | fillRandom (n : Nat)
  | write (n : Nat)
  | fsync
  | emit (e : EmittedEvent)
  deriving DecidableEq, Repr

/-- Boolean test used with countP: the effect is a write. -/
def isWriteE : Effect → Bool
  | .write _ => true
  | _ => false

/-- Boolean test used with countP: the effect is a fresh random refill. -/
def isFillRandomE : Effect → Bool
  | .fillRandom _ => true
  | _ => false

/-- Boolean test used with countP: the effect is a buffer pre-fill. -/
def isFillBufE : Effect → Bool
  | .fillBuf _ => true
  | _ => false

/-- Boolean test used with countP: the effect is an fsync. -/
def isFsyncE : Effect → Bool
  | .fsync => true
  | _ => false

/-- Boolean test on patterns mirroring the matches test in src/wipe.rs
line 344: the pattern is the random one. -/
def isRandomPattern : WipePattern → Bool
  | .Random => true
  | _ => false

/-- The cyclic multi-byte fill of src/wipe.rs lines 312-314: buffer
position i receives pattern byte i modulo the pattern length. -/
def cyclicFill (len : Nat) (pat : List Nat) : List Nat :=
  (List.range len).map fun i => pat.getD (i % pat.length) 0

/-- The once-per-pass buffer pre-fill of src/wipe.rs lines 301-321:
fixed patterns fill the whole buffer with the byte; the Gutmann pattern
selects table entry (pass - 1) mod table length and fills the buffer
with it (single-byte entries via fill, longer ones cyclically); the
random pattern performs no pre-fill. -/
def prefillEffects (bufLen pass : Nat) : WipePattern → List Effect
  | .Fixed b => [.fillBuf (List.replicate bufLen b)]
  | .Gutmann pats =>
    let pat := pats.getD ((pass - 1) % pats.length) []
    if pat.length = 1 then [.fillBuf (List.replicate bufLen (pat.getD 0 0))]
    else [.fillBuf (cyclicFill bufLen pat)]
  | .Random => []

/-- Effects of the main write loop of src/wipe.rs lines 337-389, one
iteration per write size: for the random pattern the buffer prefix is
refilled with fresh random bytes immediately before the write (line
345); then the chunk is written; then, when the throttle interval has
elapsed (oracle bit) and structured mode is on, a progress event is
emitted. The throttle oracle models the clock comparison of line 358,
one bit per iteration, false when exhausted. -/
def loopEffects (isRandom jsonMode : Bool) (pass : Nat) :
    List Nat → Nat → List Bool → List Effect
  | [], _, _ => []
  | w :: ws, written, th =>
    (if isRandom then [Effect.fillRandom w] else []) ++
    Effect.write w ::
    ((if jsonMode && th.headD false then
        [Effect.emit (.progress pass (written + w))]
      else []) ++
     loopEffects isRandom jsonMode pass ws (written + w) th.tail)

/-- Effects of one wipe_pass call (src/wipe.rs lines 270-423): seek to
the start, emit pass_start in structured mode, pre-fill the buffer
according to the pattern, run the write loop, fsync at the end of the
pass unless fast mode, and emit pass_complete in structured mode. The
unreachable-panic arm of get_pass_pattern propagates as none. -/
def wipePassEffects (cfg : SessionConfig) (pass : Nat) (throttle : List Bool) :
    Option (List Effect) :=
  match get_pass_pattern cfg.algorithm pass with
  | none => none
  | some pat =>
    some (Effect.seekStart ::
      ((if cfg.jsonMode then [Effect.emit (.passStart pass)] else []) ++
       prefillEffects cfg.bufLen pass pat ++
       loopEffects (isRandomPattern pat) cfg.jsonMode pass
         (writeSizes cfg.bufLen cfg.size) 0 throttle ++
       (if !cfg.fastMode then [Effect.fsync] else []) ++
       (if cfg.jsonMode then [Effect.emit (.passComplete pass)] else [])))

/-- Effects of the sequence of passes 1..total executed by the loop in
src/wipe.rs lines 245-247, given one throttle oracle per pass. -/
def runPasses (cfg : SessionConfig) : List Nat → List (List Bool) → Option (List Effect)
  | [], _ => some []
  | p :: ps, ths =>
    match wipePassEffects cfg p (ths.headD []) with
    | none => none
    | some tr =>
      match runPasses cfg ps ths.tail with
      | none => none
      | some rest => some (tr ++ rest)

/-- Pass indices 1..total, the range of the for loop in src/wipe.rs
line 245. -/
def passList (totalPasses : Nat) : List Nat :=
  (List.range totalPasses).map fun k => k + 1

/-- Effects of a whole wipe call (src/wipe.rs lines 223-268): compute
the total pass count, emit start in structured mode, run every pass in
order, then emit complete in structured mode. There is no validation of
the pass count anywhere: with Custom and custom_passes zero the pass
range 1..=0 is empty and the call succeeds having written nothing. -/
def wipeEffects (cfg : SessionConfig) (throttles : List (List Bool)) :
    Option (List Effect) :=
  let totalPasses := get_algorithm_pass_count cfg.algorithm cfg.custom_passes
  match runPasses cfg (passList totalPasses) throttles with
  | none => none
  | some body =>
    some ((if cfg.jsonMode then [Effect.emit EmittedEvent.start] else []) ++ body ++
      (if cfg.jsonMode then [Effect.emit EmittedEvent.complete] else []))

/-- Error cases of the engine, from the anyhow error paths of
src/wipe.rs: WipeContext::new can fail only on the open (line 143) or
the size probe (lines 151-205); wipe_pass can fail only on the seek
(line 271) or a write (line 349). There is no error path for fsync: its
return value is discarded at line 396, and there is no config
validation error path at all. -/
inductive WipeError where
  | openFailed
  | getSizeFailed
  | seekFailed
  | writeFailed
  deriving DecidableEq, Repr

/-- Result of WipeContext::new (src/wipe.rs lines 119-221) with the OS
outcomes as oracle bits. The algorithm and pass count arguments are
listed to record that the constructor never inspects them: no
configuration validation of any kind is performed, and the open (an
I/O action) happens before anything else. -/
def wipeContextNew (_algorithm : WipeAlgorithm) (_custom_passes : Nat)
    (openOk probeOk : Bool) : Except WipeError Unit :=
  if openOk = false then Except.error WipeError.openFailed
  else if probeOk = false then Except.error WipeError.getSizeFailed
  else Except.ok ()

/-- Per-pass I/O outcomes supplied by the OS: the seek result, the
result of each write_all in order (true when exhausted, meaning the
remaining writes succeed), and the return status of the end-of-pass
fsync. -/
structure IOBehavior where
  seekOk : Bool
  writeOk : List Bool
  fsyncOk : Bool
  deriving DecidableEq, Repr

/-- Whether every write of the pass succeeded, one oracle bit per
write size. -/
def writesAllOk : List Nat → List Bool → Bool
  | [], _ => true
  | _ :: ws, oks => oks.headD true && writesAllOk ws oks.tail

/-- Result of one wipe_pass call (src/wipe.rs lines 270-423): the seek
result is checked (line 272), every write result is checked (line 350),
and the end-of-pass fsync is invoked when fast mode is off but its
return value is discarded (lines 393-397), so io.fsyncOk never
influences the result. -/
def wipePassResult (cfg : SessionConfig) (io : IOBehavior) : Except WipeError Unit :=
  if io.seekOk = false then Except.error WipeError.seekFailed
  else if writesAllOk (writeSizes cfg.bufLen cfg.size) io.writeOk = false then
    Except.error WipeError.writeFailed
  else Except.ok ()

/-- Effects strictly after the first fsync of a trace (empty when the
trace has no fsync). -/
def effectsAfterFsync : List Effect → List Effect
  | [] => []
  | .fsync :: rest => rest
  | _ :: rest => effectsAfterFsync rest

/-- Boolean check that every write effect in the trace is immediately
preceded by a fresh random refill of exactly the written size. -/
def writesPrecededByFreshRandom : List Effect → Bool
  | [] => true
  | .fillRandom n :: .write m :: rest => (n == m) && writesPrecededByFreshRandom rest
  | .write _ :: _ => false
  | _ :: rest => writesPrecededByFreshRandom rest

/-! Helper lemmas about the write-size sequence. -/

theorem writeSizesAux_zero (B : Nat) : ∀ fuel, writeSizesAux B fuel 0 = [] := by
  intro fuel
  cases fuel with
  | zero => rfl
  | succ f => simp [writeSizesAux]

theorem writeSizesAux_sum (B : Nat) (hB : 0 < B) :
    ∀ fuel r, r ≤ fuel → (writeSizesAux B fuel r).sum = r := by
  intro fuel
  induction fuel with
  | zero =>
    intro r hr
    have : r = 0 := by omega
    subst this
    rfl
  | succ f ih =>
    intro r hr
    by_cases h0 : r = 0
    · subst h0
      simp [writeSizesAux]
    · rw [writeSizesAux, if_neg (by omega)]
      simp only [List.sum_cons]
      rw [ih (r - min B r) (by omega)]
      omega

theorem getLast?_cons_of_eq_some {α : Type} {l : List α} {x : α} (a : α)
    (h : l.getLast? = some x) : (a :: l).getLast? = some x := by
  cases l with
  | nil => simp at h
  | cons b t => rw [List.getLast?_cons_cons]; exact h

theorem writeSizesAux_getLast (B : Nat) (hB : 0 < B) :
    ∀ fuel r, r ≤ fuel → 0 < r →
      (writeSizesAux B fuel r).getLast? = some (if r % B = 0 then B else r % B) := by
  intro fuel
  induction fuel with
  | zero => intro r h1 h2; omega
  | succ f ih =>
    intro r h1 h2
    rw [writeSizesAux, if_neg (by omega)]
    by_cases hle : r ≤ B
    · have hmin : min B r = r := by omega
      rw [hmin, Nat.sub_self, writeSizesAux_zero]
      by_cases heq : r = B
      · subst heq
        simp [Nat.mod_self]
      · have hmod : r % B = r := Nat.mod_eq_of_lt (by omega)
        rw [hmod, if_neg (by omega)]
        simp
    · have hmin : min B r = B := by omega
      rw [hmin]
      have htail := ih (r - B) (by omega) (by omega)
      have hmod : r % B = (r - B) % B := by
        conv_lhs => rw [show r = (r - B) + B by omega]
        rw [Nat.add_mod_right]
      apply getLast?_cons_of_eq_some
      rw [htail, hmod]

theorem writeSizes_sum (B S : Nat) (hB : 0 < B) : (writeSizes B S).sum = S :=
  writeSizesAux_sum B hB S S le_rfl

theorem writeSizes_getLast (B S : Nat) (hB : 0 < B) (hS : 0 < S) :
    (writeSizes B S).getLast? = some (if S % B = 0 then B else S % B) :=
  writeSizesAux_getLast B hB S S le_rfl hS

theorem optimal_buffer_ge (bd : Bool) (mem : Option Nat) :
    4 * 1024 ≤ get_optimal_buffer_size bd 1024 mem := by
  unfold get_optimal_buffer_size
  rw [if_neg (by omega)]
  cases bd <;> simp

/-! Claim theorems for the algorithm catalog, the open flags, the
buffer sizing and the write-size sequence. -/

/-- Claim C4: for every target size S above zero and buffer size B
above zero, a single pass writes exactly S bytes in total, and the
final write of the pass is S mod B bytes when S mod B is nonzero and B
bytes otherwise. -/
theorem c4_pass_writes_exactly_size (S B : Nat) (hS : 0 < S) (hB : 0 < B) :
    (writeSizes B S).sum = S ∧
    (writeSizes B S).getLast? = some (if S % B = 0 then B else S % B) :=
  ⟨writeSizes_sum B S hB, writeSizes_getLast B S hB hS⟩

/-- Witness for C4 at target size 10 and buffer size 4: three writes
of sizes 4, 4 and 2. -/
theorem c4_pass_writes_exactly_size_witness :
    (writeSizes 4 10).sum = 10 ∧
    (writeSizes 4 10).getLast? = some (if 10 % 4 = 0 then 4 else 10 % 4) :=
  c4_pass_writes_exactly_size 10 4 (by decide) (by decide)

/-- Claim C5: the Gutmann buffer fill on pass p uses entry
(p - 1) mod 29 of the fixed 29-entry table, so for every pass p in 1..6
the pattern of pass p equals the pattern of pass p + 29, and the buffer
pre-fill of pass p equals the one of pass p + 29. -/
theorem c5_gutmann_cycle (bufLen p : Nat) (h1 : 1 ≤ p) (h2 : p ≤ 6) :
    gutmannPatternFor p = GUTMANN_PATTERNS.getD ((p - 1) % 29) [] ∧
    gutmannPatternFor p = gutmannPatternFor (p + 29) ∧
    prefillEffects bufLen p (WipePattern.Gutmann GUTMANN_PATTERNS) =
      prefillEffects bufLen (p + 29) (WipePattern.Gutmann GUTMANN_PATTERNS) := by
  interval_cases p <;> exact ⟨rfl, rfl, rfl⟩

/-- Witness for C5 at pass 2 and buffer length 4. -/
theorem c5_gutmann_cycle_witness :
    gutmannPatternFor 2 = GUTMANN_PATTERNS.getD ((2 - 1) % 29) [] ∧
    gutmannPatternFor 2 = gutmannPatternFor (2 + 29) ∧
    prefillEffects 4 2 (WipePattern.Gutmann GUTMANN_PATTERNS) =
      prefillEffects 4 (2 + 29) (WipePattern.Gutmann GUTMANN_PATTERNS) :=
  c5_gutmann_cycle 4 2 (by decide) (by decide)

/-- Claim C6: the Dod5220 pattern is the fixed byte 0x00 on pass 1, the
fixed byte 0xFF on pass 2 and random bytes on pass 3. -/
theorem c6_dod5220_patterns :
    get_pass_pattern WipeAlgorithm.Dod5220 1 = some (WipePattern.Fixed 0x00) ∧
    get_pass_pattern WipeAlgorithm.Dod5220 2 = some (WipePattern.Fixed 0xFF) ∧
    get_pass_pattern WipeAlgorithm.Dod5220 3 = some WipePattern.Random :=
  ⟨rfl, rfl, rfl⟩

/-- Claim C7: the total pass count follows the fixed table, Zero 1,
Random 1, Dod5220 3, Gutmann 35, and Custom the caller-configured
value. -/
theorem c7_pass_count_table (n : Nat) :
    get_algorithm_pass_count WipeAlgorithm.Zero n = 1 ∧
    get_algorithm_pass_count WipeAlgorithm.Random n = 1 ∧
    get_algorithm_pass_count WipeAlgorithm.Dod5220 n = 3 ∧
    get_algorithm_pass_count WipeAlgorithm.Gutmann n = 35 ∧
    get_algorithm_pass_count WipeAlgorithm.Custom n = n :=
  ⟨rfl, rfl, rfl, rfl, rfl⟩

/-- Counterexample to claim C2: for a block device outside fast mode
the claim requires the cache-bypass flag to be applied, but the open
options never set it (it exists only in a source comment). -/
theorem c2_cache_bypass_counterexample :
    (openFlagsFor true false).o_direct ≠ true := by
  decide

/-- Claim C2 as amended: the target is opened for read and write, the
synchronous-write flag is applied exactly when the target is a block
device and fast mode is off, and the cache-bypass flag is never
applied. -/
theorem c2_open_flags_amended (bd fm : Bool) :
    (openFlagsFor bd fm).read = true ∧
    (openFlagsFor bd fm).write = true ∧
    ((openFlagsFor bd fm).o_sync = true ↔ bd = true ∧ fm = false) ∧
    (openFlagsFor bd fm).o_direct = false := by
  cases bd <;> cases fm <;> decide

/-- Claim C10: a requested buffer size of exactly 1024 KB is treated as
the auto sentinel and replaced by the heuristic value, which is never
1024, while every other requested value is returned unchanged. -/
theorem c10_buffer_sentinel (bd : Bool) (mem : Option Nat) (r : Nat) (hr : r ≠ 1024) :
    get_optimal_buffer_size bd r mem = r ∧
    get_optimal_buffer_size bd 1024 mem ≠ 1024 := by
  refine ⟨by simp [get_optimal_buffer_size, hr], ?_⟩
  have h := optimal_buffer_ge bd mem
  omega

/-- Witness for C10: an explicit request of 2048 KB is honored while an
explicit request of 1024 KB is not. -/
theorem c10_buffer_sentinel_witness :
    get_optimal_buffer_size false 2048 none = 2048 ∧
    get_optimal_buffer_size false 1024 none ≠ 1024 :=
  c10_buffer_sentinel false none 2048 (by decide)

/-! Helper lemmas about pass traces. -/

theorem loopEffects_counts (isR json : Bool) (pass : Nat) :
    ∀ (ws : List Nat) (written : Nat) (th : List Bool),
      (loopEffects isR json pass ws written th).countP isWriteE = ws.length ∧
      (loopEffects isR json pass ws written th).countP isFillRandomE =
        (if isR then ws.length else 0) ∧
      (loopEffects isR json pass ws written th).countP isFillBufE = 0 ∧
      (loopEffects isR json pass ws written th).countP isFsyncE = 0 := by
  intro ws
  induction ws with
  | nil =>
    intro written th
    simp [loopEffects]
  | cons w ws ih =>
    intro written th
    obtain ⟨h1, h2, h3, h4⟩ := ih (written + w) th.tail
    simp only [loopEffects]
    cases isR <;> cases hj : (json && th.headD false) <;>
      simp [hj, List.countP_append, List.countP_cons, h1, h2, h3, h4,
        isWriteE, isFillRandomE, isFillBufE, isFsyncE]

theorem prefillEffects_counts (bufLen pass : Nat) (pat : WipePattern) :
    (prefillEffects bufLen pass pat).countP isFillBufE =
      (if isRandomPattern pat then 0 else 1) ∧
    (prefillEffects bufLen pass pat).countP isFillRandomE = 0 ∧
    (prefillEffects bufLen pass pat).countP isWriteE = 0 ∧
    (prefillEffects bufLen pass pat).countP isFsyncE = 0 := by
  cases pat with
  | Fixed b =>
    simp [prefillEffects, isRandomPattern, isFillBufE, isFillRandomE, isWriteE, isFsyncE]
  | Random =>
    simp [prefillEffects, isRandomPattern]
  | Gutmann pats =>
    simp only [prefillEffects]
    split <;>
      simp [isRandomPattern, isFillBufE, isFillRandomE, isWriteE, isFsyncE]

theorem wpfr_seek (l : List Effect) :
    writesPrecededByFreshRandom (Effect.seekStart :: l) = writesPrecededByFreshRandom l := rfl

theorem wpfr_fillBuf (b : List Nat) (l : List Effect) :
    writesPrecededByFreshRandom (Effect.fillBuf b :: l) = writesPrecededByFreshRandom l := rfl

theorem wpfr_fsyncHead (l : List Effect) :
    writesPrecededByFreshRandom (Effect.fsync :: l) = writesPrecededByFreshRandom l := rfl

theorem wpfr_emit (e : EmittedEvent) (l : List Effect) :
    writesPrecededByFreshRandom (Effect.emit e :: l) = writesPrecededByFreshRandom l := rfl

theorem wpfr_pair (n m : Nat) (l : List Effect) :
    writesPrecededByFreshRandom (Effect.fillRandom n :: Effect.write m :: l) =
      ((n == m) && writesPrecededByFreshRandom l) := rfl

theorem wpfr_loopEffects (json : Bool) (pass : Nat) :
    ∀ (ws : List Nat) (written : Nat) (th : List Bool) (tail : List Effect),
      writesPrecededByFreshRandom tail = true →
      writesPrecededByFreshRandom
        (loopEffects true json pass ws written th ++ tail) = true := by
  intro ws
  induction ws with
  | nil =>
    intro written th tail htail
    simpa [loopEffects] using htail
  | cons w ws ih =>
    intro written th tail htail
    have step := ih (written + w) th.tail tail htail
    simp only [loopEffects]
    cases hj : (json && th.headD false) <;>
      simpa [hj, wpfr_pair, wpfr_emit] using step

theorem effectsAfterFsync_cons_of_not (e : Effect) (l : List Effect)
    (h : isFsyncE e = false) :
    effectsAfterFsync (e :: l) = effectsAfterFsync l := by
  cases e <;> simp_all [effectsAfterFsync, isFsyncE]

theorem effectsAfterFsync_fsyncHead (l : List Effect) :
    effectsAfterFsync (Effect.fsync :: l) = l := rfl

theorem effectsAfterFsync_append_of_none (l m : List Effect)
    (h : l.countP isFsyncE = 0) :
    effectsAfterFsync (l ++ m) = effectsAfterFsync m := by
  induction l with
  | nil => rfl
  | cons e t ih =>
    have he : isFsyncE e = false := by
      cases hb : isFsyncE e
      · rfl
      · rw [List.countP_cons, hb] at h
        simp at h
    have ht : t.countP isFsyncE = 0 := by
      rw [List.countP_cons, he] at h
      simpa using h
    rw [List.cons_append, effectsAfterFsync_cons_of_not e _ he]
    exact ih ht

theorem wipePassEffects_counts (cfg : SessionConfig) (pass : Nat)
    (throttle : List Bool) (trace : List Effect) (pat : WipePattern)
    (hpat : get_pass_pattern cfg.algorithm pass = some pat)
    (htr : wipePassEffects cfg pass throttle = some trace) :
    trace.countP isFillBufE = (if isRandomPattern pat then 0 else 1) ∧
    trace.countP isFillRandomE =
      (if isRandomPattern pat then (writeSizes cfg.bufLen cfg.size).length else 0) ∧
    trace.countP isWriteE = (writeSizes cfg.bufLen cfg.size).length ∧
    trace.countP isFsyncE = (if cfg.fastMode then 0 else 1) := by
  unfold wipePassEffects at htr
  rw [hpat] at htr
  simp only [Option.some.injEq] at htr
  subst htr
  obtain ⟨l1, l2, l3, l4⟩ :=
    loopEffects_counts (isRandomPattern pat) cfg.jsonMode pass
      (writeSizes cfg.bufLen cfg.size) 0 throttle
  obtain ⟨p1, p2, p3, p4⟩ := prefillEffects_counts cfg.bufLen pass pat
  cases hjm : cfg.jsonMode <;> cases hfm : cfg.fastMode <;>
    rw [hjm] at l1 l2 l3 l4 <;>
    refine ⟨?_, ?_, ?_, ?_⟩ <;>
      simp [hjm, hfm, List.countP_cons, List.countP_append, l1, l2, l3, l4,
        p1, p2, p3, p4, isFillBufE, isFillRandomE, isWriteE, isFsyncE]

theorem wpfr_wipePass_random (cfg : SessionConfig) (pass : Nat) (throttle : List Bool)
    (trace : List Effect)
    (hpat : get_pass_pattern cfg.algorithm pass = some WipePattern.Random)
    (htr : wipePassEffects cfg pass throttle = some trace) :
    writesPrecededByFreshRandom trace = true := by
  unfold wipePassEffects at htr
  rw [hpat] at htr
  simp only [Option.some.injEq] at htr
  subst htr
  have key : ∀ tail : List Effect, writesPrecededByFreshRandom tail = true →
      writesPrecededByFreshRandom
        (loopEffects (isRandomPattern WipePattern.Random) cfg.jsonMode pass
          (writeSizes cfg.bufLen cfg.size) 0 throttle ++ tail) = true :=
    fun tail ht =>
      wpfr_loopEffects cfg.jsonMode pass (writeSizes cfg.bufLen cfg.size) 0 throttle tail ht
  cases hjm : cfg.jsonMode <;> cases hfm : cfg.fastMode <;>
    rw [hjm] at key <;>
    simp [hjm, hfm, prefillEffects, wpfr_seek, wpfr_emit] <;>
    first
      | exact key _ rfl
      | simpa using key [] rfl

/-! Claim theorems for the pass loop trace, the completion events, the
per-pass sync and the missing pass-count validation. -/

/-- Claim C8: within a pass the write buffer is pre-filled exactly once
for fixed-byte and cyclic patterns with no random refills, while for
the random pattern there is no pre-fill and the buffer is refilled with
fresh random bytes of exactly the write size immediately before every
single write of the pass. -/
theorem c8_buffer_fill_discipline (cfg : SessionConfig) (pass : Nat)
    (throttle : List Bool) (trace : List Effect) (pat : WipePattern)
    (hpat : get_pass_pattern cfg.algorithm pass = some pat)
    (htr : wipePassEffects cfg pass throttle = some trace) :
    (isRandomPattern pat = false →
      trace.countP isFillBufE = 1 ∧ trace.countP isFillRandomE = 0) ∧
    (isRandomPattern pat = true →
      trace.countP isFillBufE = 0 ∧
      trace.countP isFillRandomE = trace.countP isWriteE ∧
      writesPrecededByFreshRandom trace = true) := by
  obtain ⟨h1, h2, h3, h4⟩ := wipePassEffects_counts cfg pass throttle trace pat hpat htr
  constructor
  · intro hR
    rw [hR] at h1 h2
    simp only [if_false, Bool.false_eq_true] at h1 h2
    exact ⟨by simpa using h1, by simpa using h2⟩
  · intro hR
    have hpat' : pat = WipePattern.Random := by
      cases pat with
      | Fixed b => simp [isRandomPattern] at hR
      | Random => rfl
      | Gutmann ps => simp [isRandomPattern] at hR
    rw [hR] at h1 h2
    refine ⟨by simpa using h1, ?_, ?_⟩
    · rw [h2, h3]
      simp
    · subst hpat'
      exact wpfr_wipePass_random cfg pass throttle trace hpat htr

/-- Witness for C8: a Zero pass over a 3-byte target with a 2-byte
buffer pre-fills once and never refills, while a Random pass over the
same target refills immediately before each of its two writes. -/
theorem c8_buffer_fill_discipline_witness :
    (([Effect.seekStart, Effect.fillBuf [0, 0], Effect.write 2, Effect.write 1,
        Effect.fsync] : List Effect).countP isFillBufE = 1 ∧
      ([Effect.seekStart, Effect.fillBuf [0, 0], Effect.write 2, Effect.write 1,
        Effect.fsync] : List Effect).countP isFillRandomE = 0) ∧
    (([Effect.seekStart, Effect.fillRandom 2, Effect.write 2, Effect.fillRandom 1,
        Effect.write 1, Effect.fsync] : List Effect).countP isFillBufE = 0 ∧
      ([Effect.seekStart, Effect.fillRandom 2, Effect.write 2, Effect.fillRandom 1,
        Effect.write 1, Effect.fsync] : List Effect).countP isFillRandomE =
        ([Effect.seekStart, Effect.fillRandom 2, Effect.write 2, Effect.fillRandom 1,
          Effect.write 1, Effect.fsync] : List Effect).countP isWriteE ∧
      writesPrecededByFreshRandom
        [Effect.seekStart, Effect.fillRandom 2, Effect.write 2, Effect.fillRandom 1,
          Effect.write 1, Effect.fsync] = true) :=
  ⟨(c8_buffer_fill_discipline ⟨WipeAlgorithm.Zero, 1, 3, 2, false, false, false⟩ 1 []
      [Effect.seekStart, Effect.fillBuf [0, 0], Effect.write 2, Effect.write 1,
        Effect.fsync] (WipePattern.Fixed 0x00) rfl rfl).1 rfl,
   (c8_buffer_fill_discipline ⟨WipeAlgorithm.Random, 1, 3, 2, false, false, false⟩ 1 []
      [Effect.seekStart, Effect.fillRandom 2, Effect.write 2, Effect.fillRandom 1,
        Effect.write 1, Effect.fsync] WipePattern.Random rfl rfl).2 rfl⟩

/-- Claim C9: in structured mode the pass_complete event of a completed
pass and the complete event of a completed session are always emitted,
whatever the progress-throttle oracle decides; throttling suppresses
only intermediate progress events. -/
theorem c9_completion_events (cfg : SessionConfig) (pass : Nat)
    (throttle : List Bool) (passTrace : List Effect)
    (throttles : List (List Bool)) (sessionTrace : List Effect)
    (hj : cfg.jsonMode = true)
    (hp : wipePassEffects cfg pass throttle = some passTrace)
    (hs : wipeEffects cfg throttles = some sessionTrace) :
    Effect.emit (EmittedEvent.passComplete pass) ∈ passTrace ∧
    Effect.emit EmittedEvent.complete ∈ sessionTrace := by
  constructor
  · unfold wipePassEffects at hp
    cases hpat : get_pass_pattern cfg.algorithm pass with
    | none => rw [hpat] at hp; simp at hp
    | some pat =>
      rw [hpat] at hp
      simp only [Option.some.injEq] at hp
      subst hp
      simp [hj]
  · simp only [wipeEffects] at hs
    cases hrun : runPasses cfg
        (passList (get_algorithm_pass_count cfg.algorithm cfg.custom_passes)) throttles with
    | none => rw [hrun] at hs; simp at hs
    | some body =>
      rw [hrun] at hs
      simp only [Option.some.injEq] at hs
      subst hs
      simp [hj]

/-- Witness for C9: a one-pass Zero session over a 3-byte target in
structured mode with an empty throttle oracle. -/
theorem c9_completion_events_witness :
    Effect.emit (EmittedEvent.passComplete 1) ∈
      ([Effect.seekStart, Effect.emit (EmittedEvent.passStart 1), Effect.fillBuf [0, 0],
        Effect.write 2, Effect.write 1, Effect.fsync,
        Effect.emit (EmittedEvent.passComplete 1)] : List Effect) ∧
    Effect.emit EmittedEvent.complete ∈
      ([Effect.emit EmittedEvent.start, Effect.seekStart,
        Effect.emit (EmittedEvent.passStart 1), Effect.fillBuf [0, 0], Effect.write 2,
        Effect.write 1, Effect.fsync, Effect.emit (EmittedEvent.passComplete 1),
        Effect.emit EmittedEvent.complete] : List Effect) :=
  c9_completion_events ⟨WipeAlgorithm.Zero, 3, 3, 2, true, false, false⟩ 1 []
    [Effect.seekStart, Effect.emit (EmittedEvent.passStart 1), Effect.fillBuf [0, 0],
      Effect.write 2, Effect.write 1, Effect.fsync,
      Effect.emit (EmittedEvent.passComplete 1)]
    [[]]
    [Effect.emit EmittedEvent.start, Effect.seekStart,
      Effect.emit (EmittedEvent.passStart 1), Effect.fillBuf [0, 0], Effect.write 2,
      Effect.write 1, Effect.fsync, Effect.emit (EmittedEvent.passComplete 1),
      Effect.emit EmittedEvent.complete]
    rfl rfl rfl

/-- Counterexample to claim C3: with fast mode off a Zero pass over a
3-byte target performs its end-of-pass fsync (visible in the trace),
yet a failing fsync status, the last oracle field below, still yields a
successful pass result, because the source discards the fsync return
value instead of surfacing it like an I/O error. -/
theorem c3_sync_failure_counterexample :
    wipePassEffects ⟨WipeAlgorithm.Zero, 1, 3, 2, false, false, false⟩ 1 [] =
      some [Effect.seekStart, Effect.fillBuf [0, 0], Effect.write 2,
            Effect.write 1, Effect.fsync] ∧
    wipePassResult ⟨WipeAlgorithm.Zero, 1, 3, 2, false, false, false⟩
      ⟨true, [true, true], false⟩ = Except.ok () :=
  ⟨rfl, rfl⟩

/-- Claim C3 as amended: when fast mode is off every pass performs
exactly one flush/fsync, placed after all writes of the pass rather
than after every write, but the fsync return status is ignored: the
pass result is identical whatever that status, so a flush/fsync failure
is not fatal and is never surfaced. -/
theorem c3_sync_per_pass_amended (cfg : SessionConfig) (pass : Nat)
    (throttle : List Bool) (trace : List Effect) (pat : WipePattern)
    (seekOk : Bool) (writeOk : List Bool) (b1 b2 : Bool)
    (hf : cfg.fastMode = false)
    (hpat : get_pass_pattern cfg.algorithm pass = some pat)
    (htr : wipePassEffects cfg pass throttle = some trace) :
    trace.countP isFsyncE = 1 ∧
    (effectsAfterFsync trace).countP isWriteE = 0 ∧
    wipePassResult cfg ⟨seekOk, writeOk, b1⟩ = wipePassResult cfg ⟨seekOk, writeOk, b2⟩ := by
  obtain ⟨h1, h2, h3, h4⟩ := wipePassEffects_counts cfg pass throttle trace pat hpat htr
  refine ⟨by simp [h4, hf], ?_, rfl⟩
  unfold wipePassEffects at htr
  rw [hpat, hf] at htr
  simp only [Option.some.injEq, Bool.not_false, if_true] at htr
  subst htr
  obtain ⟨l1, l2, l3, l4⟩ :=
    loopEffects_counts (isRandomPattern pat) cfg.jsonMode pass
      (writeSizes cfg.bufLen cfg.size) 0 throttle
  obtain ⟨p1, p2, p3, p4⟩ := prefillEffects_counts cfg.bufLen pass pat
  have hA : (if cfg.jsonMode then [Effect.emit (EmittedEvent.passStart pass)]
      else []).countP isFsyncE = 0 := by
    cases hjm : cfg.jsonMode <;> simp [hjm, isFsyncE]
  have hC : (if cfg.jsonMode then [Effect.emit (EmittedEvent.passComplete pass)]
      else []).countP isWriteE = 0 := by
    cases hjm : cfg.jsonMode <;> simp [hjm, isWriteE]
  have key := effectsAfterFsync_append_of_none
    ((if cfg.jsonMode then [Effect.emit (EmittedEvent.passStart pass)] else []) ++
      prefillEffects cfg.bufLen pass pat ++
      loopEffects (isRandomPattern pat) cfg.jsonMode pass
        (writeSizes cfg.bufLen cfg.size) 0 throttle)
    ([Effect.fsync] ++
      (if cfg.jsonMode then [Effect.emit (EmittedEvent.passComplete pass)] else []))
    (by simp [List.countP_append, hA, p4, l4])
  rw [effectsAfterFsync_cons_of_not Effect.seekStart _ rfl, List.append_assoc, key,
    List.singleton_append, effectsAfterFsync_fsyncHead]
  exact hC

/-- Witness for C3 as amended, at the Zero pass of the counterexample
configuration: one fsync, no write after it, and a result independent
of the fsync status. -/
theorem c3_sync_per_pass_amended_witness :
    ([Effect.seekStart, Effect.fillBuf [0, 0], Effect.write 2, Effect.write 1,
      Effect.fsync] : List Effect).countP isFsyncE = 1 ∧
    (effectsAfterFsync [Effect.seekStart, Effect.fillBuf [0, 0], Effect.write 2,
      Effect.write 1, Effect.fsync]).countP isWriteE = 0 ∧
    wipePassResult ⟨WipeAlgorithm.Zero, 1, 3, 2, false, false, false⟩
        ⟨true, [true, true], false⟩ =
      wipePassResult ⟨WipeAlgorithm.Zero, 1, 3, 2, false, false, false⟩
        ⟨true, [true, true], true⟩ :=
  c3_sync_per_pass_amended ⟨WipeAlgorithm.Zero, 1, 3, 2, false, false, false⟩ 1 []
    [Effect.seekStart, Effect.fillBuf [0, 0], Effect.write 2, Effect.write 1, Effect.fsync]
    (WipePattern.Fixed 0x00) true [true, true] false true rfl rfl rfl

/-- Claim C1 at its failing input: with the Custom algorithm and a pass
count of 0 the constructor succeeds, because no configuration
validation exists anywhere (the open even happens first), and the whole
wipe call then succeeds as a no-op, emitting only the start and
complete events and performing no write, instead of failing with a
configuration error. Only the unchanged-target half of the claim holds,
vacuously, since the empty pass range produces no write effect. -/
theorem c1_custom_zero_passes_not_rejected :
    wipeContextNew WipeAlgorithm.Custom 0 true true = Except.ok () ∧
    wipeEffects ⟨WipeAlgorithm.Custom, 0, 5, 1024, true, false, false⟩ [] =
      some [Effect.emit EmittedEvent.start, Effect.emit EmittedEvent.complete] ∧
    ([Effect.emit EmittedEvent.start, Effect.emit EmittedEvent.complete] :
        List Effect).countP isWriteE = 0 :=
  ⟨rfl, rfl, by decide⟩

end SecureWipe
